import Mathlib

/-!
Shallow embedding of `kubernetes/loadbalancer.go` from the
`kubernetes-router` repository, together with theorems checking the
natural-language specification against the code.

Go values are modelled as follows:
* `map[string]string` becomes an association list `LabelMap`; a Go map
  has distinct keys, and all map reads are modelled by `List.lookup`
  (first binding wins, which coincides with Go semantics on lists whose
  keys are distinct).
* machine integers (`int`, `int32`) become `Int` with explicit wrapping
  (`toInt32`) at the points where the Go code converts.
* fallible calls return `Except GoError`; results of external
  collaborators (cluster client, app lookup, ...) are inputs of the
  functions under verification, packaged in environment structures.
* in-place mutation through pointers/slices is made explicit by state
  passing: `portsForService` returns the (possibly mutated) backend
  service next to its port list, and cluster writes are returned as an
  explicit trace of `ClusterWrite` values.
-/

/-- Association-list model of Go's `map[string]string`. -/
abbrev LabelMap := List (String × String)

/-- Errors surfaced by the Go code.  `notFound` models a result for which
`k8sErrors.IsNotFound` holds, `noService` a `ErrNoService` value,
`lbNotReady` the `ErrLoadBalancerNotReady` sentinel, `nsMismatch` the
`fmt.Errorf` for cross-namespace swaps, and `rollbackFailed` the combined
`fmt.Errorf("failed to rollback swap %v: %v", err, errRollback)`. -/
inductive GoError where
  | notFound
  | noService
  | lbNotReady
  | nsMismatch (ns1 ns2 : String)
  | rollbackFailed (orig rollback : GoError)
  | other (msg : String)
deriving DecidableEq, Repr

/-- `v1.ServicePort`: the fields used by `loadbalancer.go`.
`targetPort` is an `intstr.IntOrString` in Go; the code only ever stores
integers in it (`intstr.FromInt`), so it is modelled as `Int`. -/
structure ServicePort where
  name : String
  protocol : String
  port : Int
  targetPort : Int
  nodePort : Int
deriving DecidableEq, Repr, Inhabited

/-- One `v1.LoadBalancerIngress` entry: `{IP, Hostname}`. -/
structure IngressEntry where
  ip : String
  hostname : String
deriving DecidableEq, Repr, Inhabited

/-- `metav1.ObjectMeta` restricted to the fields the code touches.
`swapState` models the swap-bookkeeping metadata written by the external
`BaseService` collaborator (not part of this file's source): `some peer`
when the resource is marked swapped with `peer`, `none` otherwise. -/
structure ObjectMeta where
  name : String
  namespaceName : String
  labels : LabelMap
  annotations : LabelMap
  swapState : Option String
deriving DecidableEq, Repr

/-- `v1.Service` restricted to the fields the code touches:
`Spec.Selector`, `Spec.Ports`, `Spec.Type`, `Status.LoadBalancer.Ingress`
and the object metadata. -/
structure Service where
  meta : ObjectMeta
  selector : LabelMap
  ports : List ServicePort
  serviceType : String
  ingress : List IngressEntry
deriving DecidableEq, Repr

/-- `tsuruv1.App`: namespace plus the declared container port consumed by
`getAppServicePort`. -/
structure App where
  namespaceName : String
  servicePort : Int
deriving DecidableEq, Repr

/-- `router.Opts`: the fields used by `loadbalancer.go`. -/
structure Opts where
  pool : String
  exposedPort : String
  additionalOpts : LabelMap
deriving DecidableEq, Repr

/-- The `LBService` configuration: `OptsAsLabels`, `OptsAsLabelsDocs`,
`PoolLabels`, and the `BaseService` fields (`Labels`, `Annotations`,
`Namespace`) it inherits. -/
structure LBConfig where
  optsAsLabels : LabelMap
  optsAsLabelsDocs : LabelMap
  poolLabels : List (String × LabelMap)
  labels : LabelMap
  annotations : LabelMap
  namespaceName : String

/-- A write issued against the cluster, as attempted by the code. -/
inductive ClusterWrite where
  | update (ns : String) (svc : Service)
  | create (ns : String) (svc : Service)
deriving DecidableEq, Repr

/-- `defaultLBPort`: default exposed port of the LB. -/
def defaultLBPort : Int := 80

/-- `exposeAllPortsOpt`: flag used to expose all ports in the LB. -/
def exposeAllPortsOpt : String := "expose-all-ports"

/-- Modelled from the spec: `router.ExposedPort`, the name of the static
"exposed port" option.  The `router` package is not under `src/`. -/
def routerExposedPort : String := "exposed-port"

/-- Modelled from the spec: the reserved application-identity label key
written by the base service (not under `src/`). -/
def appLabel : String := "app"

/-- Modelled from the spec: the reserved "managed by this router" marker
label key written by the base service (not under `src/`). -/
def managedServiceLabel : String := "router-managed-service"

/-- Modelled from the spec: the reserved pool label key written by the
base service (not under `src/`). -/
def appPoolLabel : String := "app-pool"

/-- Modelled from the spec: `BaseService.isSwapped` reads the
swap-bookkeeping metadata and reports whether the resource is in swapped
state (the peer name is the second component of the Go return value). -/
def isSwapped (m : ObjectMeta) : Bool :=
  m.swapState.isSome

/-- Modelled from the spec: `BaseService.swap` exchanges the
swap-bookkeeping metadata of the two resources in place (the base
service is not under `src/`; the spec describes the operation as
exchanging opaque swap state). -/
def baseSwap (a b : ObjectMeta) : ObjectMeta × ObjectMeta :=
  ({ a with swapState := b.swapState }, { b with swapState := a.swapState })

/-- `serviceName`: `fmt.Sprintf("%s-router-lb", app)`. -/
def serviceName (app : String) : String :=
  app ++ "-router-lb"

/-- `isReady`: at least one ingress entry and a non-empty IP on the
first one. -/
def isReady (service : Service) : Bool :=
  if service.ingress.length = 0 then false
  else (service.ingress.headI).ip ≠ ""

/-- `getAppServicePort(app)` (defined outside `src/`).  Modelled from the
spec: it returns the application's declared container port, with a fixed
default when the app record is absent. -/
def getAppServicePort (app : Option App) : Int :=
  match app with
  | some a => a.servicePort
  | none => 8888

/-- Go `strconv.Atoi` with the error ignored: a string of decimal digits
with an optional sign parses to its value (clamped to the `int64` range,
as `Atoi` does on range errors); everything else yields `0`. -/
def goAtoi (s : String) : Int :=
  let core : List Char → Int → Int := fun ds sign =>
    if ds = [] ∨ ¬ ds.all (fun c => c.isDigit) then 0
    else
      let n : Int := sign * ((ds.foldl (fun a c => a * 10 + (c.toNat - Char.toNat '0')) 0 : Nat) : Int)
      if n > 2 ^ 63 - 1 then 2 ^ 63 - 1
      else if n < -(2 ^ 63) then -(2 ^ 63)
      else n
  match s.data with
  | '+' :: rest => core rest 1
  | '-' :: rest => core rest (-1)
  | l => core l 1

/-- Go `strconv.ParseBool` with the error ignored (`false` for both the
falsy spellings and invalid input). -/
def goParseBool (s : String) : Bool :=
  s = "1" ∨ s = "t" ∨ s = "T" ∨ s = "TRUE" ∨ s = "true" ∨ s = "True"

/-- Wrapping conversion `int32(n)` from a Go `int`. -/
def toInt32 (n : Int) : Int :=
  (n + 2 ^ 31) % 2 ^ 32 - 2 ^ 31

/-- Go map write `m[k] = v`: the binding for `k` becomes `v` and every
other binding is kept.  A Go map is unordered, so only the key-value
mapping (`List.lookup`) of the model is meaningful. -/
def mapSet (m : LabelMap) (k v : String) : LabelMap :=
  (k, v) :: m.filter (fun e => e.1 != k)

/-- First non-`none` element of a list of options, used to state
first-writer-wins merge results. -/
def firstSome {α : Type} : List (Option α) → Option α
  | [] => none
  | o :: os => o.or (firstSome os)

/-- Go map write `m[k] = v` guarded by `if _, isSet := m[k]; !isSet`,
as performed inside `mergeMaps`. -/
def mapSetIfAbsent (m : LabelMap) (k v : String) : LabelMap :=
  if (m.lookup k).isSome then m else m ++ [(k, v)]

/-- `mergeMaps`: fold the entries in order, adding each binding only when
its key is not yet present (first writer wins across entries). -/
def mergeMaps (entries : List LabelMap) : LabelMap :=
  entries.foldl (fun result entry =>
    entry.foldl (fun r kv => mapSetIfAbsent r kv.1 kv.2) result) []

/-- `Get`, given the result of `getLBService`: format the address from
the first ingress entry, the first port, and the hostname override, and
return the singleton `{"address": addr}` map. -/
def Get (fetch : Except GoError Service) : Except GoError LabelMap :=
  match fetch with
  | .error e => .error e
  | .ok service =>
    let addr :=
      match service.ingress with
      | [] => ""
      | lb0 :: _ =>
        let addr := lb0.ip
        let addr :=
          match service.ports with
          | [] => addr
          | p0 :: _ => addr ++ ":" ++ toString p0.port
        if lb0.hostname ≠ "" then lb0.hostname else addr
    .ok [("address", addr)]

/-- `SupportedOptions`: the two static options followed by one entry per
`OptsAsLabels` mapping, whose value is overridden by the configured doc
text when that text is non-empty. -/
def SupportedOptions (cfg : LBConfig) : Except GoError LabelMap :=
  let opts : LabelMap :=
    [(routerExposedPort, ""),
     (exposeAllPortsOpt,
      "Expose all ports used by application in the Load Balancer. Defaults to false.")]
  .ok (cfg.optsAsLabels.foldl (fun acc kv =>
    let acc := mapSet acc kv.1 kv.2
    if ((cfg.optsAsLabelsDocs.lookup kv.1).getD "") ≠ "" then
      mapSet acc kv.1 ((cfg.optsAsLabelsDocs.lookup kv.1).getD "")
    else acc) opts)

/-- A pointer value stored in the Go map `wantedPorts`
(`map[int32]*v1.ServicePort`): either the freshly allocated primary
entry, or a pointer `&basePorts[i]` into the backend service's port
slice. -/
inductive PortRef where
  | primaryRef
  | base (i : Nat)
deriving DecidableEq, Repr

/-- Placeholder used to make pointer dereference total; never reached on
states produced by the code (every stored `base i` index is in range). -/
def dummyPort : ServicePort :=
  { name := "", protocol := "", port := 0, targetPort := 0, nodePort := 0 }

/-- Dereference a `PortRef` in the state `(prim, bps)`. -/
def derefRef (prim : ServicePort) (bps : List ServicePort) : PortRef → ServicePort
  | .primaryRef => prim
  | .base i => (bps.get? i).getD dummyPort

/-- Go map write `wantedPorts[k] = r`: replace the binding when the key
is present, otherwise add it. -/
def assocSet (w : List (Int × PortRef)) (k : Int) (r : PortRef) : List (Int × PortRef) :=
  if w.any (fun e => e.1 = k) then
    w.map (fun e => if e.1 = k then (k, r) else e)
  else w ++ [(k, r)]

/-- The loop `for i := range basePorts` of `portsForService`: skip ports
conflicting with the primary port, zero the node port of the others in
place, and store a pointer to the (mutated) entry in `wantedPorts`.
The loop is modelled by recursion over the list of indices. -/
def addAllPortsGo (primKey : Int) :
    List Nat → List (Int × PortRef) → List ServicePort →
    List (Int × PortRef) × List ServicePort
  | [], w, bps => (w, bps)
  | i :: is, w, bps =>
    match bps.get? i with
    | none => addAllPortsGo primKey is w bps
    | some p =>
      if p.port = primKey then
        -- Skipping ports conflicting with additional port
        addAllPortsGo primKey is w bps
      else
        addAllPortsGo primKey is (assocSet w p.port (.base i))
          (bps.set i { p with nodePort := 0 })

/-- `existingPorts` lookup: the map is built by iterating
`svc.Spec.Ports` in order with overwrite, so the last entry with a given
port number wins. -/
def existingNodePort (svcPorts : List ServicePort) (k : Int) : Option Int :=
  (svcPorts.reverse.find? (fun p => p.port == k)).map (fun p => p.nodePort)

/-- The node-port carry-forward of the final loop
(`existingPort, ok := existingPorts[wantedPort.Port]`, then
`wantedPort.NodePort = existingPort.NodePort` when found) applied to one
pointee. -/
def applyNP (exNP : Int → Option Int) (k : Int) (p : ServicePort) : ServicePort :=
  match exNP k with
  | some np => { p with nodePort := np }
  | none => p

/-- The final loop of `portsForService`: for every wanted port, carry the
existing node port forward (writing through the stored pointer), and
append a copy of the pointee to the output.  The Go map iteration order
is unspecified; the entries are processed in insertion order here, which
is sound because the emitted list is sorted afterwards and the per-entry
writes target pairwise distinct pointees. -/
def collectPorts (exNP : Int → Option Int) :
    List (Int × PortRef) → ServicePort → List ServicePort →
    List ServicePort × (ServicePort × List ServicePort)
  | [], prim, bps => ([], (prim, bps))
  | (k, r) :: rest, prim, bps =>
    let cur := applyNP exNP k (derefRef prim bps r)
    let st : ServicePort × List ServicePort :=
      match r with
      | .primaryRef => (cur, bps)
      | .base i => (prim, bps.set i cur)
    let res := collectPorts exNP rest st.1 st.2
    (cur :: res.1, res.2)

/-- Insert into a list sorted ascending by `port`. -/
def insertByPort (p : ServicePort) : List ServicePort → List ServicePort
  | [] => [p]
  | q :: qs => if p.port ≤ q.port then p :: q :: qs else q :: insertByPort p qs

/-- `sort.Slice(ports, func(i, j int) bool { return ports[i].Port < ports[j].Port })`:
the wanted ports all have distinct port numbers, so any sort by port
number produces the same list; insertion sort is used as the model. -/
def sortByPort (l : List ServicePort) : List ServicePort :=
  l.foldr insertByPort []

/-- The effective primary exposed port: `strconv.Atoi(opts.ExposedPort)`
with the error ignored, replaced by `defaultLBPort` when zero. -/
def primaryPortNum (opts : Opts) : Int :=
  let n := goAtoi opts.exposedPort
  if n = 0 then defaultLBPort else n

/-- The seed entry of `wantedPorts` for the primary port. -/
def primaryEntry (app : Option App) (opts : Opts) : ServicePort :=
  { name := "port-" ++ toString (primaryPortNum opts)
    protocol := "TCP"
    port := toInt32 (primaryPortNum opts)
    targetPort := getAppServicePort app
    nodePort := 0 }

/-- The parsed `expose-all-ports` flag. -/
def allPortsFlag (opts : Opts) : Bool :=
  goParseBool ((opts.additionalOpts.lookup exposeAllPortsOpt).getD "")

/-- The `allPorts && baseSvc != nil` block: returns the final
`wantedPorts` map together with the backend service's (possibly mutated)
port slice. -/
def wantedAndBase (primKey : Int) (allPorts : Bool) (baseSvc : Option Service)
    (w0 : List (Int × PortRef)) : List (Int × PortRef) × List ServicePort :=
  match baseSvc with
  | some b =>
    if allPorts then addAllPortsGo primKey (List.range b.ports.length) w0 b.ports
    else (w0, b.ports)
  | none => (w0, [])

/-- `portsForService(svc, app, opts, baseSvc)`.  The Go function returns
`([]v1.ServicePort, error)` with the error always `nil`, and mutates
`baseSvc.Spec.Ports` in place through the shared slice; here it returns
the sorted port list next to the resulting state of `baseSvc`. -/
def portsForService (svc : Service) (app : Option App) (opts : Opts)
    (baseSvc : Option Service) : List ServicePort × Option Service :=
  let primKey := toInt32 (primaryPortNum opts)
  let w0 : List (Int × PortRef) := [(primKey, .primaryRef)]
  let wb := wantedAndBase primKey (allPortsFlag opts) baseSvc w0
  let res := collectPorts (existingNodePort svc.ports) wb.1 (primaryEntry app opts) wb.2
  (sortByPort res.1, baseSvc.map (fun b => { b with ports := res.2.2 }))

/-- `optsLabels` as built at the top of `fillLabelsAndAnnotations`: for
every configured option-to-label mapping whose option the caller
supplied, write the supplied value under the configured label key. -/
def optsDerivedLabels (cfg : LBConfig) (opts : Opts) : LabelMap :=
  cfg.optsAsLabels.foldl (fun acc kv =>
    match opts.additionalOpts.lookup kv.1 with
    | some v => mapSet acc kv.2 v
    | none => acc) []

/-- The reserved label literal of `fillLabelsAndAnnotations`:
`{appLabel: appName, managedServiceLabel: "true", appPoolLabel: opts.Pool}`. -/
def reservedLabels (appName pool : String) : LabelMap :=
  [(appLabel, appName), (managedServiceLabel, "true"), (appPoolLabel, pool)]

/-- `fillLabelsAndAnnotations(svc, appName, webService, opts)`.
`opts.ToAnnotations()` lives in the external `router` package, so its
behaviour is passed in as the fallible function `toAnnots`.  The Go
function mutates `svc`; here the updated service is returned. -/
def fillLabelsAndAnnotations (cfg : LBConfig) (svc : Service) (appName : String)
    (webService : Option Service) (opts : Opts)
    (toAnnots : Opts → Except GoError LabelMap) : Except GoError Service :=
  let optsLabels := optsDerivedLabels cfg opts
  let labels : List LabelMap :=
    [(cfg.poolLabels.lookup opts.pool).getD [],
     optsLabels,
     cfg.labels,
     reservedLabels appName opts.pool]
  match toAnnots opts with
  | .error e => .error e
  | .ok optsAnnots =>
    let annots : List LabelMap := [cfg.annotations, optsAnnots]
    let labels := labels ++ (match webService with
      | some w => [w.meta.labels]
      | none => [])
    let annots := annots ++ (match webService with
      | some w => [w.meta.annotations]
      | none => [])
    .ok { svc with meta :=
      { svc.meta with labels := mergeMaps labels, annotations := mergeMaps annots } }

/-- `LBService.swap(srcServ, dstServ)`: exchange the two selectors and
delegate the metadata exchange to the base service. -/
def lbSwapPair (srcServ dstServ : Service) : Service × Service :=
  let metas := baseSwap srcServ.meta dstServ.meta
  ({ srcServ with selector := dstServ.selector, meta := metas.1 },
   { dstServ with selector := srcServ.selector, meta := metas.2 })

/-- Results of the external collaborators consumed by one `Swap` call. -/
structure SwapEnv where
  src : Except GoError Service
  dst : Except GoError Service
  client : Option GoError
  nsSrc : Except GoError String
  nsDst : Except GoError String
  update1 : Option GoError
  update2 : Option GoError
  updateRollback : Option GoError

/-- `Swap(appSrc, appDst)`: readiness gate, in-memory swap, namespace
check, two sequential updates with a single rollback attempt on a
second-update failure.  Returns the Go result next to the trace of
attempted cluster writes. -/
def Swap (env : SwapEnv) : Except GoError Unit × List ClusterWrite :=
  match env.src with
  | .error e => (.error e, [])
  | .ok srcServ0 =>
  if ¬ isReady srcServ0 then (.error .lbNotReady, []) else
  match env.dst with
  | .error e => (.error e, [])
  | .ok dstServ0 =>
  if ¬ isReady dstServ0 then (.error .lbNotReady, []) else
  let p := lbSwapPair srcServ0 dstServ0
  let srcServ := p.1
  let dstServ := p.2
  match env.client with
  | some e => (.error e, [])
  | none =>
  match env.nsSrc with
  | .error e => (.error e, [])
  | .ok ns =>
  match env.nsDst with
  | .error e => (.error e, [])
  | .ok ns2 =>
  if ns ≠ ns2 then (.error (.nsMismatch ns ns2), []) else
  match env.update1 with
  | some e => (.error e, [.update ns srcServ])
  | none =>
  match env.update2 with
  | none => (.ok (), [.update ns srcServ, .update ns dstServ])
  | some e =>
    let q := lbSwapPair srcServ dstServ
    match env.updateRollback with
    | none =>
      (.error e, [.update ns srcServ, .update ns dstServ, .update ns q.1])
    | some errRollback =>
      (.error (.rollbackFailed e errRollback),
       [.update ns srcServ, .update ns dstServ, .update ns q.1])

/-- Results of the external collaborators consumed by one `syncLB`
call. -/
structure SyncEnv where
  app : Except GoError (Option App)
  lb : Except GoError Service
  optsFromAnnots : ObjectMeta → Except GoError Opts
  webService : Except GoError Service
  toAnnots : Opts → Except GoError LabelMap
  client : Option GoError
  updateResult : Option GoError
  createResult : Option GoError

/-- `syncLB(appName, opts, isUpdate)`: fetch-or-construct the LB
resource, no-op on swapped resources, resolve options, mirror the web
service selector, fill labels/annotations and ports, then
update-falling-back-to-create.  Returns the trace of attempted cluster
writes on success. -/
def syncLB (cfg : LBConfig) (env : SyncEnv) (appName : String)
    (opts0 : Option Opts) (isUpdate : Bool) : Except GoError (List ClusterWrite) :=
  match env.app with
  | .error e => .error e
  | .ok app =>
  let lbRes : Except GoError Service :=
    match env.lb with
    | .ok s => .ok s
    | .error e =>
      if e ≠ .notFound then .error e
      else
        let ns := match app with
          | some a => a.namespaceName
          | none => cfg.namespaceName
        .ok { meta := { name := serviceName appName, namespaceName := ns,
                        labels := [], annotations := [], swapState := none },
              selector := [], ports := [],
              serviceType := "LoadBalancer", ingress := [] }
  match lbRes with
  | .error e => .error e
  | .ok lbService =>
  if isSwapped lbService.meta then .ok [] else
  let optsRes : Except GoError Opts :=
    match opts0 with
    | some o => .ok o
    | none => env.optsFromAnnots lbService.meta
  match optsRes with
  | .error e => .error e
  | .ok opts =>
  let webRes : Except GoError (Option Service) :=
    match env.webService with
    | .ok w => .ok (some w)
    | .error e => if isUpdate ∨ e ≠ .noService then .error e else .ok none
  match webRes with
  | .error e => .error e
  | .ok webService =>
  let lbService := match webService with
    | some w => { lbService with selector := w.selector }
    | none => lbService
  match fillLabelsAndAnnotations cfg lbService appName webService opts env.toAnnots with
  | .error e => .error e
  | .ok lbService =>
  let pf := portsForService lbService app opts webService
  let lbService := { lbService with ports := pf.1 }
  match env.client with
  | some e => .error e
  | none =>
  match env.updateResult with
  | none => .ok [.update lbService.meta.namespaceName lbService]
  | some e =>
    if e = .notFound then
      match env.createResult with
      | none => .ok [.update lbService.meta.namespaceName lbService,
                     .create lbService.meta.namespaceName lbService]
      | some e2 => .error e2
    else .error e

/-- `Create(appName, opts)`. -/
def Create (cfg : LBConfig) (env : SyncEnv) (appName : String) (opts : Opts) :
    Except GoError (List ClusterWrite) :=
  syncLB cfg env appName (some opts) false

/-- `Update(appName)`. -/
def Update (cfg : LBConfig) (env : SyncEnv) (appName : String) :
    Except GoError (List ClusterWrite) :=
  syncLB cfg env appName none true

/-- Empty object metadata used by the concrete examples. -/
def mkMeta (n ns : String) : ObjectMeta :=
  { name := n, namespaceName := ns, labels := [], annotations := [], swapState := none }

/-- Service with the given ingress and ports, used by the concrete
examples. -/
def mkSvc (ing : List IngressEntry) (ports : List ServicePort) : Service :=
  { meta := mkMeta "s-router-lb" "ns1", selector := [], ports := ports,
    serviceType := "LoadBalancer", ingress := ing }

/-- TCP port entry with the given name, port, target port and node
port, used by the concrete examples. -/
def mkPort (n : String) (p t np : Int) : ServicePort :=
  { name := n, protocol := "TCP", port := p, targetPort := t, nodePort := np }

/-- The ready source service used by the C1 witness. -/
def wSrc : Service :=
  { meta := { name := "a-router-lb", namespaceName := "ns1",
              labels := [], annotations := [], swapState := none },
    selector := [("app", "a")], ports := [], serviceType := "LoadBalancer",
    ingress := [{ ip := "1.2.3.4", hostname := "" }] }

/-- The ready destination service used by the C1 witness. -/
def wDst : Service :=
  { meta := { name := "b-router-lb", namespaceName := "ns1",
              labels := [], annotations := [], swapState := none },
    selector := [("app", "b")], ports := [], serviceType := "LoadBalancer",
    ingress := [{ ip := "5.6.7.8", hostname := "" }] }

/-- The C1 witness environment: first update succeeds, second and the
rollback both fail. -/
def wSwapEnv : SwapEnv :=
  { src := .ok wSrc, dst := .ok wDst, client := none,
    nsSrc := .ok "ns1", nsDst := .ok "ns1",
    update1 := none, update2 := some (.other "boom"),
    updateRollback := some (.other "rollback-boom") }

/-- A swapped LB service used by the C6 witness. -/
def wSwappedSvc : Service :=
  { meta := { name := "a-router-lb", namespaceName := "ns1",
              labels := [], annotations := [], swapState := some "b" },
    selector := [("app", "b")], ports := [], serviceType := "LoadBalancer",
    ingress := [{ ip := "1.2.3.4", hostname := "" }] }

/-- The C6 witness environment. -/
def wSyncEnv : SyncEnv :=
  { app := .ok (some { namespaceName := "ns1", servicePort := 8888 }),
    lb := .ok wSwappedSvc,
    optsFromAnnots := fun _ => .ok { pool := "p1", exposedPort := "", additionalOpts := [] },
    webService := .error .noService,
    toAnnots := fun _ => .ok [],
    client := none, updateResult := none, createResult := none }

/-- Strip the node port, for stating which fields of a port entry a
function may change. -/
def eraseNP (p : ServicePort) : ServicePort :=
  { p with nodePort := 0 }

/-- Configuration exercising every label source on the key "k", used by
the C5 witness. -/
def cfg5 : LBConfig :=
  { optsAsLabels := [("optA", "k")], optsAsLabelsDocs := [],
    poolLabels := [("p1", [("k", "pool-v")])], labels := [("k", "static-v")],
    annotations := [], namespaceName := "default" }

/-- Options supplying "optA", used by the C5 witness. -/
def opts5 : Opts :=
  { pool := "p1", exposedPort := "", additionalOpts := [("optA", "opt-v")] }

/-- Backend service carrying its own "k" label, used by the C5
witness. -/
def web5 : Service :=
  { meta := { name := "a-web", namespaceName := "ns1",
              labels := [("k", "web-v")], annotations := [], swapState := none },
    selector := [("app", "a")], ports := [], serviceType := "ClusterIP", ingress := [] }

/-- Trivial serialization of options, used by the C5 witness. -/
def toAnn5 : Opts → Except GoError LabelMap := fun _ => .ok []

/-- The example application record of the port-resolver examples. -/
def exApp : App := { namespaceName := "ns1", servicePort := 8888 }

/-- Backend service exposing ports 80, 8080 and 443, used by the C3
witness. -/
def bk3 : Service :=
  { meta := mkMeta "a-web" "ns1", selector := [("app", "a")],
    ports := [mkPort "p80" 80 8888 31080, mkPort "p8080" 8080 8888 31880,
              mkPort "p443" 443 8888 31443],
    serviceType := "ClusterIP", ingress := [] }

/-- Options with `exposedPort=8080` and `expose-all-ports=true`, used by
the C3 witness. -/
def opts3 : Opts :=
  { pool := "p1", exposedPort := "8080", additionalOpts := [("expose-all-ports", "true")] }

/-- LB service that already carries port 80 with node port 30080, used
by the C4 witness. -/
def lb4 : Service := mkSvc [] [mkPort "port-80" 80 8888 30080]

/-- Options with no exposed port override and no extra flags. -/
def opts4 : Opts := { pool := "p1", exposedPort := "", additionalOpts := [] }

/-- Options with only `expose-all-ports=true`, used by the C4 witness
and the C9 counterexample. -/
def opts9 : Opts :=
  { pool := "p1", exposedPort := "", additionalOpts := [("expose-all-ports", "true")] }

/-- Backend service with one port that carries node port 31443, used by
the C4 witness and the C9 counterexample. -/
def bk9 : Service :=
  { meta := mkMeta "a-web" "ns1", selector := [("app", "a")],
    ports := [mkPort "p443" 443 8888 31443],
    serviceType := "ClusterIP", ingress := [] }

/-- Configuration with one option-to-label mapping and no doc text,
used by the C10 counterexample and witness. -/
def cfg10 : LBConfig :=
  { optsAsLabels := [("opt1", "label1")], optsAsLabelsDocs := [],
    poolLabels := [], labels := [], annotations := [], namespaceName := "default" }

/-- Applying the in-memory swap twice restores both services. -/
theorem lbSwapPair_invol (s d : Service) :
    lbSwapPair (lbSwapPair s d).1 (lbSwapPair s d).2 = (s, d) := rfl

/-- C7: `isReady` holds iff the status carries at least one ingress
entry whose first entry has a non-empty IP; a hostname-only first entry
is not ready. -/
theorem isReady_iff_first_ingress_ip :
    (∀ svc : Service, isReady svc = true ↔
      ∃ lb0 rest, svc.ingress = lb0 :: rest ∧ lb0.ip ≠ "") ∧
    isReady (mkSvc [{ ip := "", hostname := "lb.example.com" }] []) = false := by
  constructor
  · intro svc
    constructor
    · intro h
      cases hing : svc.ingress with
      | nil => simp [isReady, hing] at h
      | cons lb0 rest =>
        refine ⟨lb0, rest, rfl, ?_⟩
        simpa [isReady, hing] using h
    · rintro ⟨lb0, rest, hing, hip⟩
      simp [isReady, hing, hip]
  · decide

/-- C8: the address returned by `Get` is empty for an empty ingress
list, `ip:port` (first ingress IP, first configured port) when a first
port exists and no hostname is set, the bare IP without ports, and
exactly the hostname whenever the first ingress hostname is
non-empty. -/
theorem get_address_spec : ∀ svc : Service,
    (svc.ingress = [] → Get (.ok svc) = .ok [("address", "")]) ∧
    (∀ lb0 rest, svc.ingress = lb0 :: rest → lb0.hostname = "" →
      (svc.ports = [] → Get (.ok svc) = .ok [("address", lb0.ip)]) ∧
      (∀ p0 ps, svc.ports = p0 :: ps →
        Get (.ok svc) = .ok [("address", lb0.ip ++ ":" ++ toString p0.port)])) ∧
    (∀ lb0 rest, svc.ingress = lb0 :: rest → lb0.hostname ≠ "" →
      Get (.ok svc) = .ok [("address", lb0.hostname)]) := by
  intro svc
  refine ⟨fun h => by simp [Get, h], ?_, ?_⟩
  · intro lb0 rest hing hh
    refine ⟨fun hp => by simp [Get, hing, hp, hh], ?_⟩
    intro p0 ps hp
    simp [Get, hing, hp, hh]
  · intro lb0 rest hing hh
    cases hp : svc.ports with
    | nil => simp [Get, hing, hp, hh]
    | cons p0 ps => simp [Get, hing, hp, hh]

/-- Witness for C8 at concrete services: `{IP:"1.2.3.4"}` with port 80
gives `"1.2.3.4:80"`, a non-empty hostname wins over `ip:port`, and an
empty ingress list gives the empty address. -/
theorem get_address_spec_w :
    Get (.ok (mkSvc [{ ip := "1.2.3.4", hostname := "" }] [mkPort "port-80" 80 8888 0])) =
      .ok [("address", "1.2.3.4:80")] ∧
    Get (.ok (mkSvc [{ ip := "1.2.3.4", hostname := "lb.example.com" }] [mkPort "port-80" 80 8888 0])) =
      .ok [("address", "lb.example.com")] ∧
    Get (.ok (mkSvc [] [])) = .ok [("address", "")] :=
  ⟨((get_address_spec _).2.1 { ip := "1.2.3.4", hostname := "" } [] rfl rfl).2
      (mkPort "port-80" 80 8888 0) [] rfl,
   (get_address_spec _).2.2 { ip := "1.2.3.4", hostname := "lb.example.com" } [] rfl
      (by decide),
   (get_address_spec _).1 rfl⟩

/-- C2: when either fetched service fails the readiness check, `Swap`
returns `ErrLoadBalancerNotReady` and attempts no cluster write. -/
theorem swap_notReady_gate : ∀ (env : SwapEnv) (s : Service), env.src = .ok s →
    (isReady s = false → Swap env = (.error .lbNotReady, [])) ∧
    (∀ d, env.dst = .ok d → isReady d = false →
      Swap env = (.error .lbNotReady, [])) := by
  intro env s hs
  constructor
  · intro hr
    simp [Swap, hs, hr]
  · intro d hd hr
    cases hsr : isReady s with
    | false => simp [Swap, hs, hsr]
    | true => simp [Swap, hs, hd, hsr, hr]

/-- Witness for C2: a ready source and a hostname-only (hence not
ready) destination produce `ErrLoadBalancerNotReady` with an empty write
trace. -/
theorem swap_notReady_gate_w :
    Swap { src := .ok (mkSvc [{ ip := "1.2.3.4", hostname := "" }] []),
           dst := .ok (mkSvc [{ ip := "", hostname := "lb.example.com" }] []),
           client := none, nsSrc := .ok "ns1", nsDst := .ok "ns1",
           update1 := none, update2 := none, updateRollback := none } =
      (.error .lbNotReady, []) :=
  (swap_notReady_gate _ _ rfl).2 (mkSvc [{ ip := "", hostname := "lb.example.com" }] [])
    rfl (by decide)

/-- C1: when the first update succeeds and the second fails, `Swap`
attempts exactly one rollback write carrying the source service back in
its pre-swap state, returns a non-`nil` error, and combines the two
errors when the rollback write fails too. -/
theorem swap_rollback_spec (env : SwapEnv) (s d : Service) (ns : String) (e : GoError)
    (hs : env.src = .ok s) (hd : env.dst = .ok d)
    (hrs : isReady s = true) (hrd : isReady d = true)
    (hc : env.client = none) (h1 : env.nsSrc = .ok ns) (h2 : env.nsDst = .ok ns)
    (hu1 : env.update1 = none) (hu2 : env.update2 = some e) :
    Swap env =
      ((match env.updateRollback with
        | none => .error e
        | some errRollback => .error (.rollbackFailed e errRollback)),
       [.update ns (lbSwapPair s d).1, .update ns (lbSwapPair s d).2, .update ns s]) ∧
    ∀ u, (Swap env).1 ≠ .ok u := by
  have hswap : (lbSwapPair (lbSwapPair s d).1 (lbSwapPair s d).2).1 = s := by
    rw [lbSwapPair_invol]
  cases hrb : env.updateRollback with
  | none =>
    constructor
    · simp [Swap, hs, hd, hrs, hrd, hc, h1, h2, hu1, hu2, hrb, hswap]
    · intro u
      simp [Swap, hs, hd, hrs, hrd, hc, h1, h2, hu1, hu2, hrb]
  | some e2 =>
    constructor
    · simp [Swap, hs, hd, hrs, hrd, hc, h1, h2, hu1, hu2, hrb, hswap]
    · intro u
      simp [Swap, hs, hd, hrs, hrd, hc, h1, h2, hu1, hu2, hrb]

/-- Witness for C1: on `wSwapEnv` the trace holds exactly the two swap
writes followed by one rollback write of the original source service,
and the result is the combined rollback error. -/
theorem swap_rollback_spec_w :
    Swap wSwapEnv =
      (.error (.rollbackFailed (.other "boom") (.other "rollback-boom")),
       [.update "ns1" (lbSwapPair wSrc wDst).1, .update "ns1" (lbSwapPair wSrc wDst).2,
        .update "ns1" wSrc]) ∧
    ∀ u, (Swap wSwapEnv).1 ≠ .ok u :=
  swap_rollback_spec wSwapEnv wSrc wDst "ns1" (.other "boom")
    rfl rfl (by decide) (by decide) rfl rfl rfl rfl rfl

/-- C6: `syncLB` (hence both `Create` and `Update`) succeeds
immediately with no cluster write when the fetched resource is marked
swapped. -/
theorem syncLB_swapped_noop (cfg : LBConfig) (env : SyncEnv) (appName : String)
    (app : Option App) (svc : Service)
    (ha : env.app = .ok app) (hl : env.lb = .ok svc)
    (hs : isSwapped svc.meta = true) :
    (∀ opts0 isUpdate, syncLB cfg env appName opts0 isUpdate = .ok []) ∧
    (∀ o, Create cfg env appName o = .ok []) ∧
    Update cfg env appName = .ok [] := by
  have h : ∀ opts0 isUpdate, syncLB cfg env appName opts0 isUpdate = .ok [] := by
    intro opts0 isUpdate
    simp [syncLB, ha, hl, hs]
  exact ⟨h, fun o => h (some o) false, h none true⟩

/-- Witness for C6: on the swapped service both entry points return
success with an empty write trace. -/
theorem syncLB_swapped_noop_w :
    Create { optsAsLabels := [], optsAsLabelsDocs := [], poolLabels := [],
             labels := [], annotations := [], namespaceName := "default" }
        wSyncEnv "a" { pool := "p1", exposedPort := "", additionalOpts := [] } = .ok [] ∧
    Update { optsAsLabels := [], optsAsLabelsDocs := [], poolLabels := [],
             labels := [], annotations := [], namespaceName := "default" }
        wSyncEnv "a" = .ok [] :=
  ⟨(syncLB_swapped_noop _ wSyncEnv "a" _ wSwappedSvc rfl rfl rfl).2.1 _,
   (syncLB_swapped_noop _ wSyncEnv "a" _ wSwappedSvc rfl rfl rfl).2.2⟩

/-- Bindings of other keys survive a `mapSet`-style filter. -/
theorem lookup_filter_ne (m : LabelMap) (k k' : String) (h : k' ≠ k) :
    (m.filter (fun e => e.1 != k)).lookup k' = m.lookup k' := by
  induction m with
  | nil => rfl
  | cons e rest ih =>
    obtain ⟨e1, e2⟩ := e
    by_cases hek : e1 = k
    · have hb : (e1 != k) = false := by simp [hek]
      have hne : (k' == e1) = false := by simp [hek, h]
      simp [List.filter_cons, hb, List.lookup_cons, hne, ih]
    · have hb : (e1 != k) = true := by simp [hek]
      by_cases hk' : k' = e1
      · have heq : (k' == e1) = true := by simp [hk']
        simp [List.filter_cons, hb, List.lookup_cons, heq]
      · have hne : (k' == e1) = false := by simp [hk']
        simp [List.filter_cons, hb, List.lookup_cons, hne, ih]

/-- `mapSet` writes the given binding. -/
theorem mapSet_lookup_self (m : LabelMap) (k v : String) :
    (mapSet m k v).lookup k = some v := by
  simp [mapSet, List.lookup_cons]

/-- `mapSet` keeps all other bindings. -/
theorem mapSet_lookup_ne (m : LabelMap) (k v k' : String) (h : k' ≠ k) :
    (mapSet m k v).lookup k' = m.lookup k' := by
  have hne : (k' == k) = false := by simp [h]
  simp [mapSet, List.lookup_cons, hne, lookup_filter_ne m k k' h]

/-- `mapSetIfAbsent` as an `Option.or`. -/
theorem mapSetIfAbsent_lookup (m : LabelMap) (k' v' k : String) :
    (mapSetIfAbsent m k' v').lookup k =
      (m.lookup k).or (if k = k' then some v' else none) := by
  unfold mapSetIfAbsent
  by_cases h : (m.lookup k').isSome
  · simp only [h, if_pos]
    cases hk : m.lookup k with
    | some v => simp
    | none =>
      by_cases hkk : k = k'
      · subst hkk
        rw [hk] at h
        simp at h
      · simp [hkk]
  · simp only [h, if_neg, Bool.false_eq_true, not_false_iff]
    rw [List.lookup_append]
    by_cases hkk : k = k'
    · subst hkk
      simp [List.lookup_cons]
    · have hne : (k == k') = false := by simp [hkk]
      simp [List.lookup_cons, hne, hkk]

/-- Folding one entry into an accumulator with `mapSetIfAbsent` keeps
the accumulator's bindings and adds the entry's as fallback. -/
theorem insertEntry_lookup (entry : LabelMap) :
    ∀ (acc : LabelMap) (k : String),
    (entry.foldl (fun r kv => mapSetIfAbsent r kv.1 kv.2) acc).lookup k =
      (acc.lookup k).or (entry.lookup k) := by
  induction entry with
  | nil => intro acc k; simp
  | cons kv rest ih =>
    obtain ⟨k1, v1⟩ := kv
    intro acc k
    rw [List.foldl_cons, ih, mapSetIfAbsent_lookup, Option.or_assoc]
    by_cases hkk : k = k1
    · subst hkk
      simp [List.lookup_cons]
    · have hne : (k == k1) = false := by simp [hkk]
      simp [List.lookup_cons, hne, hkk]

/-- `mergeMaps` is the first-writer-wins merge: the value of any key is
the first value found for it across the entries in the given order. -/
theorem mergeMaps_lookup (entries : List LabelMap) (k : String) :
    (mergeMaps entries).lookup k =
      firstSome (entries.map (fun m => m.lookup k)) := by
  suffices h : ∀ (acc : LabelMap),
      ((entries.foldl (fun result entry =>
        entry.foldl (fun r kv => mapSetIfAbsent r kv.1 kv.2) result) acc).lookup k) =
        (acc.lookup k).or (firstSome (entries.map (fun m => m.lookup k))) by
    rw [mergeMaps, h []]
    rfl
  induction entries with
  | nil => intro acc; simp [firstSome]
  | cons e es ih =>
    intro acc
    rw [List.foldl_cons, ih, insertEntry_lookup, List.map_cons]
    rw [show firstSome ((e.lookup k) :: es.map (fun m => m.lookup k)) =
      (e.lookup k).or (firstSome (es.map (fun m => m.lookup k))) from rfl]
    rw [Option.or_assoc]

/-- Any binding produced by the `optsLabels` fold comes from a
configured option-to-label mapping whose option the caller supplied. -/
theorem optsDerivedFold_origin (opts : Opts) :
    ∀ (l : LabelMap) (acc : LabelMap) (k v : String),
    ((l.foldl (fun acc kv =>
        match opts.additionalOpts.lookup kv.1 with
        | some v => mapSet acc kv.2 v
        | none => acc) acc).lookup k = some v) →
    (∃ optName, (optName, k) ∈ l ∧ opts.additionalOpts.lookup optName = some v) ∨
      acc.lookup k = some v := by
  intro l
  induction l with
  | nil => intro acc k v h; exact .inr h
  | cons kv rest ih =>
    obtain ⟨o1, l1⟩ := kv
    intro acc k v h
    rw [List.foldl_cons] at h
    cases ha : opts.additionalOpts.lookup o1 with
    | none =>
      simp only [ha] at h
      rcases ih _ _ _ h with ⟨o, ho, hv⟩ | hacc
      · exact .inl ⟨o, List.mem_cons_of_mem _ ho, hv⟩
      · exact .inr hacc
    | some w =>
      simp only [ha] at h
      rcases ih _ _ _ h with ⟨o, ho, hv⟩ | hacc
      · exact .inl ⟨o, List.mem_cons_of_mem _ ho, hv⟩
      · by_cases hk : k = l1
        · subst hk
          rw [mapSet_lookup_self] at hacc
          exact .inl ⟨o1, List.mem_cons_self _ _, by rw [ha, hacc]⟩
        · rw [mapSet_lookup_ne _ _ _ _ hk] at hacc
          exact .inr hacc

/-- Closed form of a successful `fillLabelsAndAnnotations` run. -/
theorem fillLabels_eq (cfg : LBConfig) (svc : Service) (appName : String)
    (web : Option Service) (opts : Opts) (toAnn : Opts → Except GoError LabelMap)
    (anns : LabelMap) (h : toAnn opts = .ok anns) :
    fillLabelsAndAnnotations cfg svc appName web opts toAnn = .ok
      { svc with meta := { svc.meta with
          labels := mergeMaps ([(cfg.poolLabels.lookup opts.pool).getD [],
            optsDerivedLabels cfg opts, cfg.labels, reservedLabels appName opts.pool] ++
            (match web with | some w => [w.meta.labels] | none => [])),
          annotations := mergeMaps ([cfg.annotations, anns] ++
            (match web with | some w => [w.meta.annotations] | none => [])) } } := by
  simp only [fillLabelsAndAnnotations, h]

/-- C5: the labels written by `fillLabelsAndAnnotations` are the
first-writer-wins merge of, in order, the pool-specific overrides, the
option-derived labels (populated only from options the caller actually
supplied), the router-wide static labels, the reserved identity set, and
(when a backend service was found) the backend service's labels. -/
theorem fillLabels_precedence (cfg : LBConfig) (svc : Service) (appName : String)
    (web : Option Service) (opts : Opts) (toAnn : Opts → Except GoError LabelMap)
    (anns : LabelMap) (h : toAnn opts = .ok anns) (k : String) :
    ∃ svc', fillLabelsAndAnnotations cfg svc appName web opts toAnn = .ok svc' ∧
      svc'.meta.labels.lookup k = firstSome
        [((cfg.poolLabels.lookup opts.pool).getD []).lookup k,
         (optsDerivedLabels cfg opts).lookup k,
         cfg.labels.lookup k,
         (reservedLabels appName opts.pool).lookup k,
         (match web with | some w => w.meta.labels.lookup k | none => none)] ∧
      (∀ v, (optsDerivedLabels cfg opts).lookup k = some v →
        ∃ optName, (optName, k) ∈ cfg.optsAsLabels ∧
          opts.additionalOpts.lookup optName = some v) := by
  have origin : ∀ v, (optsDerivedLabels cfg opts).lookup k = some v →
      ∃ optName, (optName, k) ∈ cfg.optsAsLabels ∧
        opts.additionalOpts.lookup optName = some v := by
    intro v hv
    rcases optsDerivedFold_origin opts cfg.optsAsLabels [] k v hv with h' | h'
    · exact h'
    · simp [List.lookup] at h'
  refine ⟨_, fillLabels_eq cfg svc appName web opts toAnn anns h, ?_, origin⟩
  cases web with
  | none =>
    simp only [List.append_nil, mergeMaps_lookup, List.map_cons, List.map_nil]
    rfl
  | some w =>
    simp only [mergeMaps_lookup, List.map_append, List.map_cons, List.map_nil]
    rfl

/-- Witness for C5 on a configuration where every source binds the key
"k": the pool override wins. -/
theorem fillLabels_precedence_w :
    toAnn5 opts5 = .ok [] ∧
    (∃ svc', fillLabelsAndAnnotations cfg5 (mkSvc [] []) "a" (some web5) opts5 toAnn5 = .ok svc' ∧
      svc'.meta.labels.lookup "k" = firstSome
        [((cfg5.poolLabels.lookup opts5.pool).getD []).lookup "k",
         (optsDerivedLabels cfg5 opts5).lookup "k",
         cfg5.labels.lookup "k",
         (reservedLabels "a" opts5.pool).lookup "k",
         (match some web5 with | some w => w.meta.labels.lookup "k" | none => none)] ∧
      (∀ v, (optsDerivedLabels cfg5 opts5).lookup "k" = some v →
        ∃ optName, (optName, "k") ∈ cfg5.optsAsLabels ∧
          opts5.additionalOpts.lookup optName = some v)) ∧
    firstSome
        [((cfg5.poolLabels.lookup opts5.pool).getD []).lookup "k",
         (optsDerivedLabels cfg5 opts5).lookup "k",
         cfg5.labels.lookup "k",
         (reservedLabels "a" opts5.pool).lookup "k",
         (match some web5 with | some w => w.meta.labels.lookup "k" | none => none)] =
      some "pool-v" :=
  ⟨rfl, fillLabels_precedence cfg5 (mkSvc [] []) "a" (some web5) opts5 toAnn5 [] rfl "k",
   by decide⟩

/-- Counterexample for C10: with no configured doc text, the entry for
"opt1" holds the label name "label1", not the empty string the claim
requires. -/
theorem supportedOptions_docs_fallback_cex :
    (match SupportedOptions cfg10 with
     | .ok m => m.lookup "opt1"
     | .error _ => none) = some "label1" ∧ ("label1" : String) ≠ "" :=
  ⟨by decide, by decide⟩

/-- Keys not named by any option-to-label mapping keep their initial
binding through the `SupportedOptions` fold. -/
theorem soFold_lookup_notin (docs : LabelMap) :
    ∀ (l : LabelMap) (acc : LabelMap) (k : String), k ∉ l.map Prod.fst →
    ((l.foldl (fun acc kv =>
        let acc := mapSet acc kv.1 kv.2
        if ((docs.lookup kv.1).getD "") ≠ "" then
          mapSet acc kv.1 ((docs.lookup kv.1).getD "")
        else acc) acc).lookup k) = acc.lookup k := by
  intro l
  induction l with
  | nil => intro acc k _; rfl
  | cons kv rest ih =>
    obtain ⟨k1, v1⟩ := kv
    intro acc k hk
    have hk1 : k ≠ k1 := by
      intro h
      exact hk (by simp [h])
    have hkr : k ∉ rest.map Prod.fst := by
      intro h
      exact hk (by simp [h])
    rw [List.foldl_cons, ih _ _ hkr]
    by_cases hd : ((docs.lookup k1).getD "") ≠ ""
    · rw [if_pos hd, mapSet_lookup_ne _ _ _ _ hk1, mapSet_lookup_ne _ _ _ _ hk1]
    · rw [if_neg hd, mapSet_lookup_ne _ _ _ _ hk1]

/-- Every option-to-label mapping produces an entry through the
`SupportedOptions` fold: the doc text when non-empty, else the label
name. -/
theorem soFold_lookup_mem (docs : LabelMap) :
    ∀ (l : LabelMap) (acc : LabelMap) (k v : String), (k, v) ∈ l →
    (l.map Prod.fst).Nodup →
    ((l.foldl (fun acc kv =>
        let acc := mapSet acc kv.1 kv.2
        if ((docs.lookup kv.1).getD "") ≠ "" then
          mapSet acc kv.1 ((docs.lookup kv.1).getD "")
        else acc) acc).lookup k) =
      some (if ((docs.lookup k).getD "") ≠ "" then (docs.lookup k).getD "" else v) := by
  intro l
  induction l with
  | nil => intro acc k v h _; cases h
  | cons kv rest ih =>
    obtain ⟨k1, v1⟩ := kv
    intro acc k v hmem hnd
    rw [List.map_cons] at hnd
    have hnd' := List.nodup_cons.mp hnd
    rcases List.mem_cons.mp hmem with heq | hrest
    · obtain ⟨hk, hv⟩ := Prod.mk.injEq .. ▸ heq
      subst hk
      subst hv
      have hkr : k ∉ rest.map Prod.fst := hnd'.1
      rw [List.foldl_cons, soFold_lookup_notin docs rest _ k hkr]
      by_cases hd : ((docs.lookup k).getD "") ≠ ""
      · rw [if_pos hd, mapSet_lookup_self, if_pos hd]
      · rw [if_neg hd, mapSet_lookup_self, if_neg hd]
    · rw [List.foldl_cons]
      exact ih _ k v hrest hnd'.2

/-- C10 (amended): `SupportedOptions` contains the exposed-port and
expose-all-ports options, plus one entry per option-to-label mapping
whose value is the configured doc text when non-empty and the label
name otherwise. -/
theorem supportedOptions_spec (cfg : LBConfig)
    (hnd : (cfg.optsAsLabels.map Prod.fst).Nodup) :
    ∃ m, SupportedOptions cfg = .ok m ∧
      (routerExposedPort ∉ cfg.optsAsLabels.map Prod.fst →
        m.lookup routerExposedPort = some "") ∧
      (exposeAllPortsOpt ∉ cfg.optsAsLabels.map Prod.fst →
        m.lookup exposeAllPortsOpt =
          some "Expose all ports used by application in the Load Balancer. Defaults to false.") ∧
      (∀ kv ∈ cfg.optsAsLabels, m.lookup kv.1 =
        some (if ((cfg.optsAsLabelsDocs.lookup kv.1).getD "") ≠ "" then
          (cfg.optsAsLabelsDocs.lookup kv.1).getD "" else kv.2)) := by
  refine ⟨_, rfl, ?_, ?_, ?_⟩
  · intro hni
    rw [soFold_lookup_notin _ _ _ _ hni]
    decide
  · intro hni
    rw [soFold_lookup_notin _ _ _ _ hni]
    decide
  · intro kv hmem
    exact soFold_lookup_mem _ _ _ _ _ hmem hnd

/-- Witness for C10 (amended) on `cfg10`: the static entries are
present and "opt1" maps to its label name "label1". -/
theorem supportedOptions_spec_w :
    (cfg10.optsAsLabels.map Prod.fst).Nodup ∧
    (∃ m, SupportedOptions cfg10 = .ok m ∧
      (routerExposedPort ∉ cfg10.optsAsLabels.map Prod.fst →
        m.lookup routerExposedPort = some "") ∧
      (exposeAllPortsOpt ∉ cfg10.optsAsLabels.map Prod.fst →
        m.lookup exposeAllPortsOpt =
          some "Expose all ports used by application in the Load Balancer. Defaults to false.") ∧
      (∀ kv ∈ cfg10.optsAsLabels, m.lookup kv.1 =
        some (if ((cfg10.optsAsLabelsDocs.lookup kv.1).getD "") ≠ "" then
          (cfg10.optsAsLabelsDocs.lookup kv.1).getD "" else kv.2))) :=
  ⟨by decide, supportedOptions_spec cfg10 (by decide)⟩

/-- Membership in a `wantedPorts` write: the new binding, or an old one
with a different key. -/
theorem assocSet_mem (W : List (Int × PortRef)) (k : Int) (r : PortRef)
    (k' : Int) (r' : PortRef) :
    (k', r') ∈ assocSet W k r ↔ ((k', r') ∈ W ∧ k' ≠ k) ∨ (k' = k ∧ r' = r) := by
  unfold assocSet
  by_cases h : W.any (fun e => e.1 = k)
  · rw [if_pos h]
    rw [List.any_eq_true] at h
    obtain ⟨e0, he0, hk0⟩ := h
    rw [decide_eq_true_eq] at hk0
    constructor
    · intro hm
      rcases List.mem_map.mp hm with ⟨e, he, hfe⟩
      by_cases hek : e.1 = k
      · rw [if_pos hek] at hfe
        injection hfe with h1 h2
        exact .inr ⟨h1.symm, h2.symm⟩
      · rw [if_neg hek] at hfe
        subst hfe
        exact .inl ⟨he, hek⟩
    · rintro (⟨hm, hne⟩ | ⟨hk, hr⟩)
      · exact List.mem_map.mpr ⟨(k', r'), hm, by simp [hne]⟩
      · subst hk
        subst hr
        exact List.mem_map.mpr ⟨e0, he0, by simp [hk0]⟩
  · rw [if_neg h]
    rw [List.any_eq_true] at h
    push_neg at h
    constructor
    · intro hm
      rcases List.mem_append.mp hm with hm | hm
      · refine .inl ⟨hm, fun hk => ?_⟩
        have hc := h (k', r') hm
        exact hc (by simpa using hk)
      · have heq := List.mem_singleton.mp hm
        injection heq with h1 h2
        exact .inr ⟨h1, h2⟩
    · rintro (⟨hm, _⟩ | ⟨hk, hr⟩)
      · exact List.mem_append.mpr (.inl hm)
      · subst hk
        subst hr
        exact List.mem_append.mpr (.inr (List.mem_singleton.mpr rfl))

/-- Keys after a `wantedPorts` write. -/
theorem assocSet_keys_mem (W : List (Int × PortRef)) (k : Int) (r : PortRef) (q : Int) :
    q ∈ (assocSet W k r).map Prod.fst ↔ q ∈ W.map Prod.fst ∨ q = k := by
  constructor
  · intro hm
    rcases List.mem_map.mp hm with ⟨e, he, hfe⟩
    obtain ⟨e1, e2⟩ := e
    rcases (assocSet_mem W k r e1 e2).mp he with ⟨hw, hne⟩ | ⟨hk, _⟩
    · exact .inl (List.mem_map.mpr ⟨(e1, e2), hw, hfe⟩)
    · subst hfe
      exact .inr hk
  · rintro (hm | hq)
    · rcases List.mem_map.mp hm with ⟨e, he, hfe⟩
      obtain ⟨e1, e2⟩ := e
      by_cases hek : e1 = k
      · subst hek
        subst hfe
        exact List.mem_map.mpr ⟨(e1, r), (assocSet_mem ..).mpr (.inr ⟨rfl, rfl⟩), rfl⟩
      · exact List.mem_map.mpr ⟨(e1, e2), (assocSet_mem ..).mpr (.inl ⟨he, hek⟩), hfe⟩
    · subst hq
      exact List.mem_map.mpr ⟨(q, r), (assocSet_mem ..).mpr (.inr ⟨rfl, rfl⟩), rfl⟩

/-- Keys stay `Nodup` across a `wantedPorts` write. -/
theorem assocSet_keys_nodup (W : List (Int × PortRef)) (k : Int) (r : PortRef)
    (h : (W.map Prod.fst).Nodup) : ((assocSet W k r).map Prod.fst).Nodup := by
  unfold assocSet
  by_cases hany : W.any (fun e => e.1 = k)
  · rw [if_pos hany]
    have hkeys : (W.map (fun e => if e.1 = k then (k, r) else e)).map Prod.fst =
        W.map Prod.fst := by
      rw [List.map_map]
      apply List.map_congr_left
      intro e _
      by_cases hek : e.1 = k
      · simp [hek]
      · simp [hek]
    rw [hkeys]
    exact h
  · rw [if_neg hany]
    rw [List.map_append, List.nodup_append]
    refine ⟨h, List.nodup_singleton _, ?_⟩
    intro a ha hb
    rcases List.mem_singleton.mp hb with rfl
    rcases List.mem_map.mp ha with ⟨e, he, hfe⟩
    apply hany
    rw [List.any_eq_true]
    exact ⟨e, he, by simp [hfe]⟩

/-- Any pointer present after a `wantedPorts` write is an old pointer or
the new one. -/
theorem mapIf_refs_sub (W : List (Int × PortRef)) (k : Int) (r : PortRef) (x : PortRef)
    (hx : x ∈ (W.map (fun e => if e.1 = k then (k, r) else e)).map Prod.snd) :
    x ∈ W.map Prod.snd ∨ x = r := by
  rw [List.map_map] at hx
  rcases List.mem_map.mp hx with ⟨e, he, hfe⟩
  by_cases hek : e.1 = k
  · right
    rw [← hfe]
    simp [hek]
  · left
    refine List.mem_map.mpr ⟨e, he, ?_⟩
    rw [← hfe]
    simp [hek]

/-- Pointer replacement keeps pointers `Nodup` when keys are `Nodup`
and the new pointer is fresh. -/
theorem mapIf_refs_nodup (k : Int) (r : PortRef) : ∀ (W : List (Int × PortRef)),
    (W.map Prod.fst).Nodup → (W.map Prod.snd).Nodup → r ∉ W.map Prod.snd →
    ((W.map (fun e => if e.1 = k then (k, r) else e)).map Prod.snd).Nodup := by
  intro W
  induction W with
  | nil => intro _ _ _; simp
  | cons e W' ih =>
    obtain ⟨e1, e2⟩ := e
    intro hk hr hnew
    simp only [List.map_cons, List.nodup_cons] at hk hr
    have hnew1 : r ≠ e2 := by
      intro hc
      apply hnew
      simp [hc]
    have hnew2 : r ∉ W'.map Prod.snd := by
      intro hc
      apply hnew
      simp [hc]
    by_cases hek : e1 = k
    · have hid : W'.map (fun e => if e.1 = k then (k, r) else e) = W'.map id := by
        apply List.map_congr_left
        intro e' he'
        have hne : ¬ e'.1 = k := by
          intro hc
          apply hk.1
          rw [← hek] at hc
          exact List.mem_map.mpr ⟨e', he', hc⟩
        rw [if_neg hne]
        rfl
      rw [List.map_cons, hid, List.map_id]
      have hcond : ((e1, e2).1 = k) := hek
      rw [if_pos hcond, List.map_cons, List.nodup_cons]
      exact ⟨by simpa using hnew2, hr.2⟩
    · rw [List.map_cons]
      have hcond : ¬ ((e1, e2).1 = k) := hek
      rw [if_neg hcond, List.map_cons, List.nodup_cons]
      constructor
      · intro hmem
        rcases mapIf_refs_sub W' k r _ hmem with hold | hnewx
        · exact hr.1 hold
        · exact hnew1 hnewx.symm
      · exact ih hk.2 hr.2 hnew2

/-- Pointers stay `Nodup` across a `wantedPorts` write of a pointer not
yet stored. -/
theorem assocSet_refs_nodup (W : List (Int × PortRef)) (k : Int) (r : PortRef)
    (hk : (W.map Prod.fst).Nodup) (hr : (W.map Prod.snd).Nodup)
    (hnew : r ∉ W.map Prod.snd) :
    ((assocSet W k r).map Prod.snd).Nodup := by
  unfold assocSet
  by_cases hany : W.any (fun e => e.1 = k)
  · rw [if_pos hany]
    exact mapIf_refs_nodup k r W hk hr hnew
  · rw [if_neg hany]
    rw [List.map_append, List.nodup_append]
    refine ⟨hr, by simp, ?_⟩
    intro a ha hb
    simp only [List.map_cons, List.map_nil, List.mem_singleton] at hb
    subst hb
    exact hnew ha

/-- Setting an index to the value it already holds is the identity. -/
theorem set_self_of_get? {α : Type} : ∀ (l : List α) (i : Nat) (a : α),
    l.get? i = some a → l.set i a = l := by
  intro l
  induction l with
  | nil => intro i a h; cases h
  | cons x xs ih =>
    intro i a h
    cases i with
    | zero =>
      injection h with h
      rw [List.set, h]
    | succ j =>
      rw [List.set, ih j a h]

/-- `applyNP` changes at most the node port. -/
theorem eraseNP_applyNP (exNP : Int → Option Int) (k : Int) (p : ServicePort) :
    eraseNP (applyNP exNP k p) = eraseNP p := by
  cases h : exNP k <;> simp [applyNP, eraseNP, h]

/-- `applyNP` keeps the port number. -/
theorem applyNP_port (exNP : Int → Option Int) (k : Int) (p : ServicePort) :
    (applyNP exNP k p).port = p.port := by
  cases h : exNP k <;> simp [applyNP, h]

/-- Overwriting an entry with a value that differs at most in its node
port leaves the node-port-erased list unchanged. -/
theorem map_eraseNP_set (bps : List ServicePort) (i : Nat) (v : ServicePort)
    (h : ∀ p, bps.get? i = some p → eraseNP v = eraseNP p) :
    (bps.set i v).map eraseNP = bps.map eraseNP := by
  cases hg : bps.get? i with
  | none => rw [List.set_eq_of_length_le (List.get?_eq_none.mp hg)]
  | some p =>
    rw [List.map_set, h p hg]
    apply set_self_of_get?
    rw [List.get?_map, hg]
    rfl

/-- A pointer different from the written one dereferences unchanged
after a write through `.base i`. -/
theorem derefRef_set_ne (prim : ServicePort) (bps : List ServicePort) (i : Nat)
    (v : ServicePort) (r : PortRef) (h : r ≠ .base i) :
    derefRef prim (bps.set i v) r = derefRef prim bps r := by
  cases r with
  | primaryRef => rfl
  | base j =>
    have hij : i ≠ j := fun hc => h (by rw [hc])
    rw [derefRef, derefRef, List.get?_set_ne _ _ hij]

/-- Dereferencing a `.base` pointer ignores the primary entry. -/
theorem derefRef_base_prim (prim prim' : ServicePort) (bps : List ServicePort) (j : Nat) :
    derefRef prim bps (.base j) = derefRef prim' bps (.base j) := rfl


/-- The list emitted by the final loop: one entry per wanted port — its
pointee with the node-port carry-forward applied — provided the stored
pointers are pairwise distinct (per-entry writes then never touch a
pointee read later). -/
theorem collectPorts_out (exNP : Int → Option Int) : ∀ (W : List (Int × PortRef))
    (prim : ServicePort) (bps : List ServicePort), (W.map Prod.snd).Nodup →
    (collectPorts exNP W prim bps).1 =
      W.map (fun e => applyNP exNP e.1 (derefRef prim bps e.2)) := by
  intro W
  induction W with
  | nil => intro prim bps _; rfl
  | cons e rest ih =>
    obtain ⟨k, r⟩ := e
    intro prim bps hnd
    simp only [List.map_cons, List.nodup_cons] at hnd
    simp only [collectPorts, List.map_cons]
    congr 1
    cases r with
    | primaryRef =>
      rw [ih _ _ hnd.2]
      apply List.map_congr_left
      intro e' he'
      obtain ⟨k', r'⟩ := e'
      cases r' with
      | primaryRef =>
        exact absurd (List.mem_map.mpr ⟨(k', .primaryRef), he', rfl⟩) hnd.1
      | base j => rfl
    | base i =>
      rw [ih _ _ hnd.2]
      apply List.map_congr_left
      intro e' he'
      have hne : e'.2 ≠ .base i := by
        intro hc
        exact hnd.1 (List.mem_map.mpr ⟨e', he', hc⟩)
      rw [derefRef_set_ne _ _ _ _ _ hne]

/-- The final loop changes at most node ports of the backend slice. -/
theorem collectPorts_state (exNP : Int → Option Int) : ∀ (W : List (Int × PortRef))
    (prim : ServicePort) (bps : List ServicePort),
    ((collectPorts exNP W prim bps).2.2).map eraseNP = bps.map eraseNP := by
  intro W
  induction W with
  | nil => intro prim bps; rfl
  | cons e rest ih =>
    obtain ⟨k, r⟩ := e
    intro prim bps
    simp only [collectPorts]
    cases r with
    | primaryRef => exact ih _ _
    | base i =>
      rw [ih _ _]
      apply map_eraseNP_set
      intro p hp
      rw [derefRef, hp]
      exact eraseNP_applyNP _ _ _

/-- Invariants of the `for i := range basePorts` loop: starting from a
map whose stored pointers avoid the indices still to process, the loop
keeps keys and pointers duplicate-free, stores only in-range pointers to
zero-node-port entries whose port number is their key, adds no primary
binding, changes at most node ports of the slice, and its final key set
is the initial keys plus the non-conflicting base ports. -/
theorem addAllPortsGo_spec (primKey : Int) : ∀ (idxs : List Nat)
    (W : List (Int × PortRef)) (bps : List ServicePort),
    idxs.Nodup →
    (∀ i ∈ idxs, ∀ k, (k, PortRef.base i) ∉ W) →
    (W.map Prod.fst).Nodup →
    (W.map Prod.snd).Nodup →
    (∀ k j, (k, PortRef.base j) ∈ W →
      ∃ p, bps.get? j = some p ∧ p.port = k ∧ p.nodePort = 0) →
    ∀ r1 r2, addAllPortsGo primKey idxs W bps = (r1, r2) →
    (r1.map Prod.fst).Nodup ∧
    (r1.map Prod.snd).Nodup ∧
    (∀ k j, (k, PortRef.base j) ∈ r1 →
      ∃ p, r2.get? j = some p ∧ p.port = k ∧ p.nodePort = 0) ∧
    (∀ k, (k, PortRef.primaryRef) ∈ r1 → (k, PortRef.primaryRef) ∈ W) ∧
    ((primKey, PortRef.primaryRef) ∈ W → (primKey, PortRef.primaryRef) ∈ r1) ∧
    (r2.map eraseNP = bps.map eraseNP) ∧
    (∀ q, q ∈ r1.map Prod.fst ↔ q ∈ W.map Prod.fst ∨
      (q ≠ primKey ∧ ∃ i ∈ idxs, ∃ p, bps.get? i = some p ∧ p.port = q)) := by
  intro idxs
  induction idxs with
  | nil =>
    intro W bps _ _ hWk hWr hbase r1 r2 hres
    rw [addAllPortsGo] at hres
    injection hres with h1 h2
    subst h1
    subst h2
    refine ⟨hWk, hWr, hbase, fun k h => h, fun h => h, rfl, fun q => ?_⟩
    simp
  | cons i idxs' ih =>
    intro W bps hnd hfresh hWk hWr hbase r1 r2 hres
    rw [addAllPortsGo] at hres
    rw [List.nodup_cons] at hnd
    cases hget : bps.get? i with
    | none =>
      rw [hget] at hres
      have hfresh' : ∀ j ∈ idxs', ∀ k, (k, PortRef.base j) ∉ W :=
        fun j hj k => hfresh j (List.mem_cons_of_mem _ hj) k
      obtain ⟨c1, c2, c3, c4, c7, c5, c6⟩ :=
        ih W bps hnd.2 hfresh' hWk hWr hbase r1 r2 hres
      refine ⟨c1, c2, c3, c4, c7, c5, fun q => ?_⟩
      rw [c6 q]
      constructor
      · rintro (h | ⟨hq, i', hi', hp⟩)
        · exact .inl h
        · exact .inr ⟨hq, i', List.mem_cons_of_mem _ hi', hp⟩
      · rintro (h | ⟨hq, i', hi', p', hp', hport⟩)
        · exact .inl h
        · rcases List.mem_cons.mp hi' with rfl | hi'
          · rw [hget] at hp'
            cases hp'
          · exact .inr ⟨hq, i', hi', p', hp', hport⟩
    | some p =>
      simp only [hget] at hres
      by_cases hpp : p.port = primKey
      · rw [if_pos hpp] at hres
        have hfresh' : ∀ j ∈ idxs', ∀ k, (k, PortRef.base j) ∉ W :=
          fun j hj k => hfresh j (List.mem_cons_of_mem _ hj) k
        obtain ⟨c1, c2, c3, c4, c7, c5, c6⟩ :=
          ih W bps hnd.2 hfresh' hWk hWr hbase r1 r2 hres
        refine ⟨c1, c2, c3, c4, c7, c5, fun q => ?_⟩
        rw [c6 q]
        constructor
        · rintro (h | ⟨hq, i', hi', hp⟩)
          · exact .inl h
          · exact .inr ⟨hq, i', List.mem_cons_of_mem _ hi', hp⟩
        · rintro (h | ⟨hq, i', hi', p', hp', hport⟩)
          · exact .inl h
          · rcases List.mem_cons.mp hi' with rfl | hi'
            · rw [hget] at hp'
              injection hp' with hp'
              subst hp'
              exact absurd (hport ▸ hpp) hq
            · exact .inr ⟨hq, i', hi', p', hp', hport⟩
      · rw [if_neg hpp] at hres
        have hlen : i < bps.length := (List.get?_eq_some.mp hget).1
        have hbi_fresh : PortRef.base i ∉ W.map Prod.snd := by
          intro hmem
          rcases List.mem_map.mp hmem with ⟨e, he, hfe⟩
          obtain ⟨e1, e2⟩ := e
          subst hfe
          exact hfresh i (List.mem_cons_self _ _) e1 he
        have hfresh' : ∀ j ∈ idxs', ∀ k,
            (k, PortRef.base j) ∉ assocSet W p.port (.base i) := by
          intro j hj k hmem
          rcases (assocSet_mem ..).mp hmem with ⟨hw, _⟩ | ⟨_, hr⟩
          · exact hfresh j (List.mem_cons_of_mem _ hj) k hw
          · injection hr with hji
            subst hji
            exact hnd.1 hj
        have hWk' := assocSet_keys_nodup W p.port (.base i) hWk
        have hWr' := assocSet_refs_nodup W p.port (.base i) hWk hWr hbi_fresh
        have hbase' : ∀ k j, (k, PortRef.base j) ∈ assocSet W p.port (.base i) →
            ∃ p', (bps.set i { p with nodePort := 0 }).get? j = some p' ∧
              p'.port = k ∧ p'.nodePort = 0 := by
          intro k j hmem
          rcases (assocSet_mem ..).mp hmem with ⟨hw, _⟩ | ⟨hk, hr⟩
          · have hji : j ≠ i := by
              intro hc
              subst hc
              exact hfresh j (List.mem_cons_self _ _) k hw
            obtain ⟨p', hp', hport, hnp⟩ := hbase k j hw
            exact ⟨p', by rw [List.get?_set_ne _ _ (fun hc => hji hc.symm), hp'],
              hport, hnp⟩
          · injection hr with hji
            subst hji
            subst hk
            refine ⟨{ p with nodePort := 0 }, ?_, rfl, rfl⟩
            rw [List.get?_set_eq, hget]
            rfl
        obtain ⟨c1, c2, c3, c4, c7, c5, c6⟩ :=
          ih (assocSet W p.port (.base i)) (bps.set i { p with nodePort := 0 })
            hnd.2 hfresh' hWk' hWr' hbase' r1 r2 hres
        have c7' : (primKey, PortRef.primaryRef) ∈ W → (primKey, PortRef.primaryRef) ∈ r1 :=
          fun h => c7 ((assocSet_mem ..).mpr (.inl ⟨h, fun hc => hpp hc.symm⟩))
        have c4' : ∀ k, (k, PortRef.primaryRef) ∈ r1 → (k, PortRef.primaryRef) ∈ W := by
          intro k hk
          rcases (assocSet_mem ..).mp (c4 k hk) with ⟨hw, _⟩ | ⟨_, hr⟩
          · exact hw
          · cases hr
        have c5' : r2.map eraseNP = bps.map eraseNP := by
          rw [c5]
          apply map_eraseNP_set
          intro p' hp'
          rw [hget] at hp'
          injection hp' with hp'
          subst hp'
          rfl
        refine ⟨c1, c2, c3, c4', c7', c5', fun q => ?_⟩
        rw [c6 q]
        constructor
        · rintro (h | ⟨hq, i', hi', p', hp', hport⟩)
          · rcases (assocSet_keys_mem ..).mp h with h | rfl
            · exact .inl h
            · exact .inr ⟨hpp, i, List.mem_cons_self _ _, p, hget, rfl⟩
          · have hii : i' ≠ i := fun hc => hnd.1 (hc ▸ hi')
            rw [List.get?_set_ne _ _ (fun hc => hii hc.symm)] at hp'
            exact .inr ⟨hq, i', List.mem_cons_of_mem _ hi', p', hp', hport⟩
        · rintro (h | ⟨hq, i', hi', p', hp', hport⟩)
          · exact .inl ((assocSet_keys_mem ..).mpr (.inl h))
          · rcases List.mem_cons.mp hi' with rfl | hi'
            · rw [hget] at hp'
              injection hp' with hp'
              subst hp'
              exact .inl ((assocSet_keys_mem ..).mpr (.inr hport.symm))
            · have hii : i' ≠ i := fun hc => hnd.1 (hc ▸ hi')
              refine .inr ⟨hq, i', hi', p', ?_, hport⟩
              rw [List.get?_set_ne _ _ (fun hc => hii hc.symm), hp']

/-- Inserting into the sort permutes a cons. -/
theorem insertByPort_perm (p : ServicePort) : ∀ l, (insertByPort p l).Perm (p :: l) := by
  intro l
  induction l with
  | nil => exact List.Perm.refl _
  | cons q qs ih =>
    rw [insertByPort]
    by_cases h : p.port ≤ q.port
    · rw [if_pos h]
    · rw [if_neg h]
      exact (ih.cons q).trans (List.Perm.swap p q qs)

/-- The modelled `sort.Slice` is a permutation. -/
theorem sortByPort_perm : ∀ l, (sortByPort l).Perm l := by
  intro l
  induction l with
  | nil => exact List.Perm.refl _
  | cons x xs ih =>
    rw [sortByPort, List.foldr_cons]
    exact (insertByPort_perm x _).trans (ih.cons x)

/-- Inserting keeps the by-port ordering. -/
theorem insertByPort_sorted (p : ServicePort) : ∀ l,
    l.Pairwise (fun a b => a.port ≤ b.port) →
    (insertByPort p l).Pairwise (fun a b => a.port ≤ b.port) := by
  intro l
  induction l with
  | nil => intro _; simp [insertByPort]
  | cons q qs ih =>
    intro hs
    rw [List.pairwise_cons] at hs
    rw [insertByPort]
    by_cases h : p.port ≤ q.port
    · rw [if_pos h]
      rw [List.pairwise_cons]
      refine ⟨?_, List.pairwise_cons.mpr hs⟩
      intro x hx
      rcases List.mem_cons.mp hx with rfl | hx
      · exact h
      · exact le_trans h (hs.1 x hx)
    · rw [if_neg h]
      rw [List.pairwise_cons]
      refine ⟨?_, ih hs.2⟩
      intro x hx
      rcases (insertByPort_perm p qs).mem_iff.mp hx with hx'
      rcases List.mem_cons.mp hx' with rfl | hx'
      · exact le_of_lt (lt_of_not_le h)
      · exact hs.1 x hx'

/-- The modelled `sort.Slice` sorts ascending by port number. -/
theorem sortByPort_sorted : ∀ l,
    (sortByPort l).Pairwise (fun a b => a.port ≤ b.port) := by
  intro l
  induction l with
  | nil => simp [sortByPort]
  | cons x xs ih =>
    rw [sortByPort, List.foldr_cons]
    exact insertByPort_sorted x _ ih

/-- Indexed and membership views of a list agree. -/
theorem exists_idx_iff_mem {α : Type} (l : List α) (P : α → Prop) :
    (∃ i ∈ List.range l.length, ∃ p, l.get? i = some p ∧ P p) ↔ ∃ p ∈ l, P p := by
  constructor
  · rintro ⟨i, _, p, hget, hP⟩
    exact ⟨p, List.get?_mem hget, hP⟩
  · rintro ⟨p, hp, hP⟩
    rcases List.mem_iff_get?.mp hp with ⟨i, hget⟩
    exact ⟨i, List.mem_range.mpr (List.get?_eq_some.mp hget).1, p, hget, hP⟩

/-- Invariants of the `wantedPorts` map produced before the final loop,
for every combination of the expose-all flag and backend presence. -/
theorem wantedAndBase_spec (primKey : Int) (allPorts : Bool) (baseSvc : Option Service) :
    ∀ r1 r2, wantedAndBase primKey allPorts baseSvc [(primKey, PortRef.primaryRef)] = (r1, r2) →
    (r1.map Prod.fst).Nodup ∧
    (r1.map Prod.snd).Nodup ∧
    (∀ k j, (k, PortRef.base j) ∈ r1 →
      ∃ p, r2.get? j = some p ∧ p.port = k ∧ p.nodePort = 0) ∧
    (∀ k, (k, PortRef.primaryRef) ∈ r1 → k = primKey) ∧
    ((primKey, PortRef.primaryRef) ∈ r1) ∧
    (r2.map eraseNP = (match baseSvc with
      | some b => b.ports.map eraseNP
      | none => [])) ∧
    (∀ q, q ∈ r1.map Prod.fst ↔ q = primKey ∨
      (q ≠ primKey ∧ allPorts = true ∧
        ∃ b, baseSvc = some b ∧ ∃ p ∈ b.ports, p.port = q)) := by
  intro r1 r2 hres
  cases baseSvc with
  | none =>
    rw [wantedAndBase] at hres
    injection hres with h1 h2
    subst h1
    subst h2
    refine ⟨by simp, by simp, ?_, ?_, List.mem_singleton.mpr rfl, rfl, fun q => ?_⟩
    · intro k j hmem
      simp at hmem
    · intro k hmem
      simp at hmem
      exact hmem
    · simp
  | some b =>
    rw [wantedAndBase] at hres
    cases allPorts with
    | false =>
      rw [if_neg (by simp)] at hres
      injection hres with h1 h2
      subst h1
      subst h2
      refine ⟨by simp, by simp, ?_, ?_, List.mem_singleton.mpr rfl, rfl, fun q => ?_⟩
      · intro k j hmem
        simp at hmem
      · intro k hmem
        simp at hmem
        exact hmem
      · simp
    | true =>
      rw [if_pos rfl] at hres
      obtain ⟨c1, c2, c3, c4, c7, c5, c6⟩ :=
        addAllPortsGo_spec primKey (List.range b.ports.length)
          [(primKey, PortRef.primaryRef)] b.ports
          (List.nodup_range _)
          (by intro i _ k hmem; simp at hmem)
          (by simp) (by simp)
          (by intro k j hmem; simp at hmem)
          r1 r2 hres
      refine ⟨c1, c2, c3, ?_, c7 (List.mem_singleton.mpr rfl), c5, fun q => ?_⟩
      · intro k hmem
        have h4 := c4 k hmem
        simp at h4
        exact h4
      · rw [c6 q]
        constructor
        · rintro (h | ⟨hq, hidx⟩)
          · simp only [List.map_cons, List.map_nil, List.mem_singleton] at h
            exact .inl h
          · exact .inr ⟨hq, rfl, b, rfl,
              (exists_idx_iff_mem b.ports (fun p => p.port = q)).mp hidx⟩
        · rintro (rfl | ⟨hq, _, b', hb', hmem⟩)
          · exact .inl (by simp)
          · injection hb' with hb'
            subst hb'
            exact .inr ⟨hq,
              (exists_idx_iff_mem b.ports (fun p => p.port = q)).mpr hmem⟩

/-- Full characterisation of the port list computed by
`portsForService`: sorted ascending by port with pairwise distinct
ports; its port numbers are the primary port plus (with the
expose-all-ports flag and a backend) every non-conflicting backend
port; it carries an entry equal to the primary entry up to node port;
and every entry's node port is the existing resource's assignment for
that port number, or zero. -/
theorem portsForService_spec (svc : Service) (app : Option App) (opts : Opts)
    (baseSvc : Option Service) :
    ((portsForService svc app opts baseSvc).1.Pairwise (fun a b => a.port ≤ b.port)) ∧
    (((portsForService svc app opts baseSvc).1.map (fun p => p.port)).Nodup) ∧
    (∀ q, (q ∈ (portsForService svc app opts baseSvc).1.map (fun p => p.port)) ↔
      (q = toInt32 (primaryPortNum opts) ∨
       (q ≠ toInt32 (primaryPortNum opts) ∧ allPortsFlag opts = true ∧
        ∃ b, baseSvc = some b ∧ ∃ p ∈ b.ports, p.port = q))) ∧
    (∃ pe ∈ (portsForService svc app opts baseSvc).1,
      eraseNP pe = eraseNP (primaryEntry app opts)) ∧
    (∀ pe ∈ (portsForService svc app opts baseSvc).1,
      pe.nodePort = (existingNodePort svc.ports pe.port).getD 0) := by
  obtain ⟨c1, c2, c3, c4, cmem, c5, c6⟩ :=
    wantedAndBase_spec (toInt32 (primaryPortNum opts)) (allPortsFlag opts) baseSvc
      (wantedAndBase (toInt32 (primaryPortNum opts)) (allPortsFlag opts) baseSvc
        [(toInt32 (primaryPortNum opts), PortRef.primaryRef)]).1
      (wantedAndBase (toInt32 (primaryPortNum opts)) (allPortsFlag opts) baseSvc
        [(toInt32 (primaryPortNum opts), PortRef.primaryRef)]).2 rfl
  set primKey := toInt32 (primaryPortNum opts) with hpk
  set exNP := existingNodePort svc.ports with hex
  set prim := primaryEntry app opts with hprim
  set W := (wantedAndBase primKey (allPortsFlag opts) baseSvc
    [(primKey, PortRef.primaryRef)]).1 with hWdef
  set bps := (wantedAndBase primKey (allPortsFlag opts) baseSvc
    [(primKey, PortRef.primaryRef)]).2 with hbpsdef
  have hres1 : (portsForService svc app opts baseSvc).1 =
      sortByPort ((collectPorts exNP W prim bps).1) := rfl
  have hout := collectPorts_out exNP W prim bps c2
  have hports : ∀ e ∈ W, (derefRef prim bps e.2).port = e.1 ∧
      (derefRef prim bps e.2).nodePort = 0 := by
    intro e he
    obtain ⟨k, r⟩ := e
    cases r with
    | primaryRef =>
      have hk := c4 k he
      subst hk
      exact ⟨rfl, rfl⟩
    | base j =>
      obtain ⟨p, hget, hport, hnp⟩ := c3 k j he
      rw [derefRef, hget]
      exact ⟨hport, hnp⟩
  have hmapport : ((collectPorts exNP W prim bps).1).map (fun p => p.port) =
      W.map Prod.fst := by
    rw [hout, List.map_map]
    apply List.map_congr_left
    intro e he
    show (applyNP exNP e.1 (derefRef prim bps e.2)).port = e.1
    rw [applyNP_port]
    exact (hports e he).1
  have hperm := sortByPort_perm ((collectPorts exNP W prim bps).1)
  have hpermmap := hperm.map (fun p => p.port)
  refine ⟨?_, ?_, ?_, ?_, ?_⟩
  · rw [hres1]
    exact sortByPort_sorted _
  · rw [hres1]
    exact hpermmap.nodup_iff.mpr (hmapport ▸ c1)
  · intro q
    rw [hres1, hpermmap.mem_iff, hmapport]
    exact c6 q
  · refine ⟨applyNP exNP primKey prim, ?_, ?_⟩
    · rw [hres1, hperm.mem_iff, hout]
      exact List.mem_map.mpr ⟨(primKey, .primaryRef), cmem, rfl⟩
    · exact eraseNP_applyNP _ _ _
  · intro pe hpe
    rw [hres1, hperm.mem_iff, hout] at hpe
    rcases List.mem_map.mp hpe with ⟨e, he, hfe⟩
    obtain ⟨hport0, hnp0⟩ := hports e he
    subst hfe
    rw [applyNP_port, hport0]
    cases hx : exNP e.1 with
    | some np => simp [applyNP, hx]
    | none => simp [applyNP, hx, hnp0]

/-- C3: the primary port comes from parsing `exposedPort` with fallback
80 on absent/invalid/zero; with the expose-all-ports flag every backend
port joins the wanted set except ones equal to the primary port (the
primary wins); the output is sorted ascending with distinct ports; and
the concrete example `exposedPort=8080`, backend ports {80, 8080, 443}
yields exactly {80, 443, 8080} with 8080 the primary entry targeting
the app's container port. -/
theorem portsForService_primary_spec :
    (∀ (svc : Service) (app : Option App) (opts : Opts) (b : Service),
      allPortsFlag opts = true →
      ((∀ q, q ∈ (portsForService svc app opts (some b)).1.map (fun p => p.port) ↔
        (q = toInt32 (primaryPortNum opts) ∨
         (q ≠ toInt32 (primaryPortNum opts) ∧ ∃ p ∈ b.ports, p.port = q))) ∧
       (∃ pe ∈ (portsForService svc app opts (some b)).1,
         eraseNP pe = eraseNP (primaryEntry app opts)) ∧
       ((portsForService svc app opts (some b)).1.Pairwise (fun a c => a.port ≤ c.port)) ∧
       (((portsForService svc app opts (some b)).1.map (fun p => p.port)).Nodup))) ∧
    primaryPortNum { pool := "", exposedPort := "", additionalOpts := [] } = 80 ∧
    primaryPortNum { pool := "", exposedPort := "abc", additionalOpts := [] } = 80 ∧
    primaryPortNum { pool := "", exposedPort := "0", additionalOpts := [] } = 80 ∧
    primaryPortNum opts3 = 8080 ∧
    (portsForService (mkSvc [] []) (some exApp) opts3 (some bk3)).1 =
      [mkPort "p80" 80 8888 0, mkPort "p443" 443 8888 0,
       { name := "port-8080", protocol := "TCP", port := 8080,
         targetPort := 8888, nodePort := 0 }] := by
  refine ⟨?_, by decide, by decide, by decide, by decide, by decide⟩
  intro svc app opts b hall
  obtain ⟨s1, s2, s3, s4, _⟩ := portsForService_spec svc app opts (some b)
  refine ⟨?_, s4, s1, s2⟩
  intro q
  rw [s3 q]
  constructor
  · rintro (h | ⟨hq, _, b', hb', hp⟩)
    · exact .inl h
    · injection hb' with hb'
      subst hb'
      exact .inr ⟨hq, hp⟩
  · rintro (h | ⟨hq, hp⟩)
    · exact .inl h
    · exact .inr ⟨hq, hall, b, rfl, hp⟩

/-- Witness for C3 at the concrete example: port 8080 is in the
resolved set and backend port 8080 collides with the primary. -/
theorem portsForService_primary_spec_w :
    allPortsFlag opts3 = true ∧
    ((8080 : Int) ∈ (portsForService (mkSvc [] []) (some exApp) opts3 (some bk3)).1.map
        (fun p => p.port) ↔
      ((8080 : Int) = toInt32 (primaryPortNum opts3) ∨
       ((8080 : Int) ≠ toInt32 (primaryPortNum opts3) ∧
        ∃ p ∈ bk3.ports, p.port = (8080 : Int)))) :=
  ⟨by decide,
   (portsForService_primary_spec.1 (mkSvc [] []) (some exApp) opts3 bk3 (by decide)).1 8080⟩

/-- C4: every resolved port carries the existing resource's node-port
assignment for its port number (or zero when there is none); node ports
coming from the backend service are therefore never emitted.  The
concrete examples re-sync an existing port 80 with node port 30080
unchanged, and zero the backend's node port 31443. -/
theorem portsForService_nodePort_spec :
    (∀ (svc : Service) (app : Option App) (opts : Opts) (baseSvc : Option Service),
      ∀ pe ∈ (portsForService svc app opts baseSvc).1,
        pe.nodePort = (existingNodePort svc.ports pe.port).getD 0) ∧
    ((portsForService lb4 (some exApp) opts4 none).1 =
      [mkPort "port-80" 80 8888 30080]) ∧
    ((portsForService (mkSvc [] []) (some exApp) opts9 (some bk9)).1 =
      [{ name := "port-80", protocol := "TCP", port := 80,
         targetPort := 8888, nodePort := 0 },
       mkPort "p443" 443 8888 0]) := by
  refine ⟨?_, by decide, by decide⟩
  intro svc app opts baseSvc
  exact (portsForService_spec svc app opts baseSvc).2.2.2.2

/-- Witness for C4: applying the node-port law to the resolved port 80
of `lb4` yields the preserved node port 30080. -/
theorem portsForService_nodePort_spec_w :
    mkPort "port-80" 80 8888 30080 ∈ (portsForService lb4 (some exApp) opts4 none).1 ∧
    (mkPort "port-80" 80 8888 30080).nodePort =
      (existingNodePort lb4.ports (mkPort "port-80" 80 8888 30080).port).getD 0 :=
  ⟨by decide,
   portsForService_nodePort_spec.1 lb4 (some exApp) opts4 none _ (by decide)⟩

/-- Counterexample for C9: with expose-all-ports on, the backend
service's own port entry comes back with its node port zeroed in
memory — the fetched backend object is not left unmodified. -/
theorem portsForService_mutates_backend_cex :
    (portsForService (mkSvc [] []) (some exApp) opts9 (some bk9)).2 ≠ some bk9 ∧
    (portsForService (mkSvc [] []) (some exApp) opts9 (some bk9)).2 =
      some { bk9 with ports := [mkPort "p443" 443 8888 0] } :=
  ⟨by decide, by decide⟩

/-- C9 (amended): `portsForService` touches the backend service only in
the node-port fields of its port entries (everything else, and the
whole object when no backend is given, is unchanged); the backend
object is never part of any cluster write. -/
theorem portsForService_backend_frame :
    (∀ (svc : Service) (app : Option App) (opts : Opts) (b : Service),
      ∃ ports2,
        (portsForService svc app opts (some b)).2 = some { b with ports := ports2 } ∧
        ports2.map eraseNP = b.ports.map eraseNP) ∧
    (∀ (svc : Service) (app : Option App) (opts : Opts),
      (portsForService svc app opts none).2 = none) := by
  constructor
  · intro svc app opts b
    obtain ⟨_, _, _, _, _, c5, _⟩ :=
      wantedAndBase_spec (toInt32 (primaryPortNum opts)) (allPortsFlag opts) (some b)
        (wantedAndBase (toInt32 (primaryPortNum opts)) (allPortsFlag opts) (some b)
          [(toInt32 (primaryPortNum opts), PortRef.primaryRef)]).1
        (wantedAndBase (toInt32 (primaryPortNum opts)) (allPortsFlag opts) (some b)
          [(toInt32 (primaryPortNum opts), PortRef.primaryRef)]).2 rfl
    refine ⟨_, rfl, ?_⟩
    rw [collectPorts_state]
    exact c5
  · intro svc app opts
    rfl
